import Mathlib

/-!
# Verification of the flightsim run command (`cmd/run.go`)

A shallow embedding of the execution orchestrator of `flightsim`: the
catalog of simulators (`allsimualtors`), the selector
(`selectSimulators`), and the orchestrator loop (`run`), together with
the argument-validation and configuration logic of `newRunCommand`'s
`RunE` closure.

Side effects (printed lines, sleeps, simulated actions) are modelled as
an explicit trace of `Event`s, in emission order.  Durations are in
milliseconds (`2 * time.Second = 2000`, `500 * time.Millisecond = 500`).
Timestamp/colour formatting of the reporter is not modelled (it carries
no control flow).
-/

namespace Flightsim

/-- Decidable equality for `Except`, for concrete evaluation. -/
instance {ε α : Type} [DecidableEq ε] [DecidableEq α] :
    DecidableEq (Except ε α) := fun a b =>
  match a, b with
  | .error x, .error y =>
    if h : x = y then isTrue (by subst h; rfl)
    else isFalse (fun hc => h (by cases hc; rfl))
  | .error _, .ok _ => isFalse (fun hc => Except.noConfusion hc)
  | .ok _, .error _ => isFalse (fun hc => Except.noConfusion hc)
  | .ok x, .ok y =>
    if h : x = y then isTrue (by subst h; rfl)
    else isFalse (fun hc => h (by cases hc; rfl))

/-- Modelled from the spec: the `simulator.Simulator` capability
consumed by the orchestrator (the simulator package is an external
collaborator).  `Hosts()` produces an ordered, finite sequence of
target identifiers or fails; on failure no targets are produced.
`Simulate` reports nothing observable to the caller, so it needs no
field here: its invocation is recorded as a trace event by the
orchestrator. -/
structure Simulator where
  hosts : Except String (List String)
  deriving DecidableEq

/-- `type simulatorInfo struct` of `cmd/run.go`: one catalog entry.
`interval` is the pacing delay in milliseconds. -/
structure simulatorInfo where
  name : String
  infoHeaders : List String
  infoRun : String
  s : Simulator
  interval : Nat
  deriving DecidableEq

/-- One observable step of the run, in emission order:
`msg` is a `printMsg` line, `sleep` a `time.Sleep`, `simulate` an
invocation of `s.s.Simulate(extIP, host)`; `welcome`, `header` and
`goodbye` are the banner lines of `printWelcome`, `printHeader` and
`printGoodbay`. -/
inductive Event where
  | welcome (ip : String)
  | header
  | msg (module : String) (text : String)
  | sleep (ms : Nat)
  | simulate (ip : String) (target : String)
  | goodbye
  deriving DecidableEq

/-- Is this event a `printMsg` line? -/
def Event.isMsg : Event → Bool
  | .msg _ _ => true
  | _ => false

/-- Is this event a `Simulate` invocation? -/
def Event.isSimulate : Event → Bool
  | .simulate _ _ => true
  | _ => false

/-- `fmt.Sprintf` restricted to templates with a single `%s` verb (the
only form the catalog uses): substitute the argument for the first
occurrence of `%s`. -/
def sprintf1Aux : List Char → String → List Char
  | [], _ => []
  | '%' :: 's' :: rest, arg => arg.data ++ rest
  | c :: rest, arg => c :: sprintf1Aux rest arg

/-- String wrapper around `sprintf1Aux`. -/
def sprintf1 (tmpl arg : String) : String :=
  ⟨sprintf1Aux tmpl.data arg⟩

/-- Index of the last occurrence of `c` in `l`, if any. -/
def lastIndexOfChar (c : Char) (l : List Char) : Option Nat :=
  match l.reverse.findIdx? (· = c) with
  | none => none
  | some j => some (l.length - 1 - j)

/-- Modelled from the Go standard library `net.SplitHostPort` (an
external collaborator of `cmd/run.go`): split `host:port`, with IPv6
literals in square brackets; `none` models any of its errors (missing
port, too many colons, stray brackets).  Indices are over characters
rather than bytes; since the delimiters are ASCII the split text is the
same. -/
def splitHostPort (hostPort : String) : Option (String × String) :=
  let l := hostPort.data
  match lastIndexOfChar ':' l with
  | none => none
  | some i =>
    if l.head? = some '[' then
      match l.findIdx? (· = ']') with
      | none => none
      | some e =>
        if e + 1 = l.length then
          none
        else if e + 1 = i then
          if ((l.drop 1).contains '[') then none
          else if ((l.drop (e + 1)).contains ']') then none
          else some (⟨(l.drop 1).take (e - 1)⟩, ⟨l.drop (i + 1)⟩)
        else none
    else
      if ((l.take i).contains ':') then none
      else if (l.contains '[') then none
      else if (l.contains ']') then none
      else some (⟨l.take i⟩, ⟨l.drop (i + 1)⟩)

/-- The display-hostname derivation of the target loop in `run`:
`hostname, _, err := net.SplitHostPort(host); if err != nil { hostname = host }`. -/
def displayHostname (host : String) : String :=
  match splitHostPort host with
  | some (hostname, _) => hostname
  | none => host

/-- The inner target loop of `run` (`for _, host := range hosts`),
with the `prevHostname` accumulator made explicit: announce the display
hostname when it changed, invoke `Simulate` with the raw identifier,
sleep the entry's pacing delay. -/
def targetsLoop (s : simulatorInfo) (ip : String) : String → List String → List Event
  | _, [] => []
  | prev, host :: rest =>
    let hostname := displayHostname host
    (if prev ≠ hostname then [Event.msg s.name (sprintf1 s.infoRun hostname)] else [])
      ++ Event.simulate ip host :: Event.sleep s.interval :: targetsLoop s ip hostname rest

/-- The body of `run`'s outer loop for one catalog entry: announce
start and the phase-description headers, sleep the inter-entry delay,
fetch the target sequence (announcing a failure instead of running the
target loop when production fails), and announce completion. -/
def entryTrace (ip : String) (interval : Nat) (s : simulatorInfo) : List Event :=
  Event.msg s.name "Starting" :: s.infoHeaders.map (Event.msg s.name)
    ++ Event.sleep interval
      :: (match s.s.hosts with
          | .error e => [Event.msg s.name ("failed " ++ e)]
          | .ok hosts => targetsLoop s ip "" hosts)
    ++ [Event.msg s.name "Finished"]

/-- `func run(simulators []simulatorInfo, extIP net.IP, interval time.Duration)`:
welcome banner, header, each entry in order, goodbye. -/
def run (simulators : List simulatorInfo) (extIP : String) (interval : Nat) : List Event :=
  Event.welcome extIP :: Event.header
    :: (simulators.map (entryTrace extIP interval)).flatten ++ [Event.goodbye]

/-- Modelled from the spec: `utils.StringsContains` (the utils package
is an external helper) — whether a string occurs in a list. -/
def stringsContains (l : List String) (x : String) : Bool :=
  l.contains x

/-- `func selectSimulators(names []string) []simulatorInfo`, with the
catalog it ranges over made an explicit argument: keep, in catalog
order, the entries whose name occurs in `names`. -/
def selectSimulatorsFrom (catalog : List simulatorInfo) (names : List String) :
    List simulatorInfo :=
  match catalog with
  | [] => []
  | s :: rest =>
    if stringsContains names s.name then s :: selectSimulatorsFrom rest names
    else selectSimulatorsFrom rest names

/-- `var allsimualtors = []simulatorInfo{...}` of `cmd/run.go` (name
kept as in the source).  The four bound simulator instances
(`NewC2DNS()`, `NewDGA()`, `NewPortScan()`, `NewTunnel()`) are external
collaborators and are taken as parameters. -/
def allsimualtors (c2dns dga scan tunnel : Simulator) : List simulatorInfo :=
  [ ⟨"c2-dns", ["Preparing random sample of current C2 domains"],
      "Resolving %s", c2dns, 500⟩,
    ⟨"dga", ["Generating list of DGA domains"],
      "Resolving %s", dga, 500⟩,
    ⟨"scan", ["Preparing random sample of RFC 1918 destinations",
              "Preparing random sample of common TCP destination ports"],
      "Port scanning %s", scan, 0⟩,
    ⟨"tunnel", ["Preparing DNS tunnel hostnames"],
      "Resolving %s", tunnel, 500⟩ ]

/-- `selectSimulators` over the process catalog. -/
def selectSimulators (c2dns dga scan tunnel : Simulator) (names : List String) :
    List simulatorInfo :=
  selectSimulatorsFrom (allsimualtors c2dns dga scan tunnel) names

/-- The default `simulatorNames` of `newRunCommand`. -/
def simulatorNames : List String :=
  ["c2-dns", "dga", "scan", "tunnel"]

/-- The `RunE` closure of `newRunCommand`, with the package-level
catalog threaded as explicit state (second component of the result):
validate every argument against `simulatorNames` (failing at the first
unknown one), default empty arguments to all names, resolve the
external IP (its outcome is the `extIP` input), select, collapse
delays to zero in fast mode, and run.  The returned catalog is the
catalog after the command executes. -/
def runCommandState (c2dns dga scan tunnel : Simulator) (fast : Bool)
    (extIP : Except String String) (args : List String) :
    Except String (List Event) × List simulatorInfo :=
  let catalog := allsimualtors c2dns dga scan tunnel
  match args.find? (fun a => !(stringsContains simulatorNames a)) with
  | some arg => (.error ("simulator " ++ arg ++ " not recognized"), catalog)
  | none =>
    let names := if args.length > 0 then args else simulatorNames
    match extIP with
    | .error e => (.error e, catalog)
    | .ok ip =>
      let simulators := selectSimulatorsFrom catalog names
      let interval := if fast then 0 else 2000
      let simulators :=
        if fast then simulators.map (fun s => { s with interval := 0 }) else simulators
      (.ok (run simulators ip interval), catalog)

/-- The result of the `RunE` closure (the error, or the run's trace). -/
def runE (c2dns dga scan tunnel : Simulator) (fast : Bool)
    (extIP : Except String String) (args : List String) :
    Except String (List Event) :=
  (runCommandState c2dns dga scan tunnel fast extIP args).1

/-! ## Helper lemmas -/

theorem selectSimulatorsFrom_eq_filter (catalog : List simulatorInfo) (names : List String) :
    selectSimulatorsFrom catalog names
      = catalog.filter (fun s => stringsContains names s.name) := by
  induction catalog with
  | nil => rfl
  | cons s rest ih =>
    by_cases h : stringsContains names s.name
    · simp [selectSimulatorsFrom, List.filter_cons, h, ih]
    · simp [selectSimulatorsFrom, List.filter_cons, h, ih]

theorem selectSimulatorsFrom_sublist (catalog : List simulatorInfo) (names : List String) :
    (selectSimulatorsFrom catalog names).Sublist catalog := by
  rw [selectSimulatorsFrom_eq_filter]
  exact List.filter_sublist catalog

theorem stringsContains_perm {names names₂ : List String} (h : names.Perm names₂)
    (n : String) : stringsContains names n = stringsContains names₂ n := by
  simp only [stringsContains, List.contains, List.elem_eq_mem]
  exact decide_eq_decide.mpr h.mem_iff

/-! ## Claims about the Selector -/

/-- C2: the Selector returns exactly the subsequence of catalog entries
whose names occur in the requested list, in the catalog's fixed order,
regardless of the order the names were supplied in; in particular
requesting `["tunnel", "c2-dns"]` yields the `c2-dns` entry before the
`tunnel` entry. -/
theorem selector_follows_catalog_order (c2dns dga scan tunnel : Simulator)
    (names : List String) :
    selectSimulators c2dns dga scan tunnel names
      = (allsimualtors c2dns dga scan tunnel).filter
          (fun s => stringsContains names s.name)
  ∧ (∀ names₂, names.Perm names₂ →
      selectSimulators c2dns dga scan tunnel names
        = selectSimulators c2dns dga scan tunnel names₂)
  ∧ selectSimulators c2dns dga scan tunnel ["tunnel", "c2-dns"]
      = [⟨"c2-dns", ["Preparing random sample of current C2 domains"],
            "Resolving %s", c2dns, 500⟩,
         ⟨"tunnel", ["Preparing DNS tunnel hostnames"],
            "Resolving %s", tunnel, 500⟩] := by
  refine ⟨selectSimulatorsFrom_eq_filter _ _, fun names₂ h => ?_, ?_⟩
  · unfold selectSimulators
    rw [selectSimulatorsFrom_eq_filter, selectSimulatorsFrom_eq_filter]
    exact List.filter_congr (fun s _ => stringsContains_perm h s.name)
  · rfl

/-- Witness for C2 at a concrete input: the two supply orders of
`{tunnel, c2-dns}` select the same entries. -/
theorem selector_follows_catalog_order_witness :
    selectSimulators ⟨.ok []⟩ ⟨.ok []⟩ ⟨.ok []⟩ ⟨.ok []⟩ ["tunnel", "c2-dns"]
      = selectSimulators ⟨.ok []⟩ ⟨.ok []⟩ ⟨.ok []⟩ ⟨.ok []⟩ ["c2-dns", "tunnel"] :=
  (selector_follows_catalog_order ⟨.ok []⟩ ⟨.ok []⟩ ⟨.ok []⟩ ⟨.ok []⟩
      ["tunnel", "c2-dns"]).2.1 ["c2-dns", "tunnel"] (by decide)

/-- C7: an empty argument list defaults to every catalog name, so the
selection is the entire ordered catalog and the run executes the full
catalog (in normal mode, with the 2-second inter-entry delay). -/
theorem empty_args_run_full_catalog (c2dns dga scan tunnel : Simulator) (ip : String) :
    selectSimulators c2dns dga scan tunnel simulatorNames
      = allsimualtors c2dns dga scan tunnel
  ∧ runE c2dns dga scan tunnel false (.ok ip) []
      = .ok (run (allsimualtors c2dns dga scan tunnel) ip 2000) := by
  constructor
  · rfl
  · rfl

/-! ## Claims about fatal errors before the run -/

/-- C3: an unknown argument name makes the run command return an error
before the orchestration starts: the result is an error (no trace of
events exists, so no entry executes and no Simulator method is
invoked), and the result does not depend on the source-identity
resolution outcome (the same error is returned for every `extIP`
value); likewise if source-identity resolution fails (and all names are
valid) the command returns that error and no entry executes.  The
validation list `simulatorNames` coincides with the catalog's keys. -/
theorem unknown_name_or_ip_failure_aborts (c2dns dga scan tunnel : Simulator)
    (fast : Bool) (args : List String) :
    ((∃ a ∈ args, stringsContains simulatorNames a = false) →
       ∃ m, ∀ extIP, runE c2dns dga scan tunnel fast extIP args = .error m)
  ∧ (∀ e, (∀ a ∈ args, stringsContains simulatorNames a = true) →
       runE c2dns dga scan tunnel fast (.error e) args = .error e)
  ∧ (allsimualtors c2dns dga scan tunnel).map simulatorInfo.name = simulatorNames := by
  refine ⟨fun ⟨a, ha, hfalse⟩ => ?_, fun e hall => ?_, rfl⟩
  · cases hfind : args.find? (fun a => !(stringsContains simulatorNames a)) with
    | none =>
      exact absurd (by simp [hfalse]) (List.find?_eq_none.mp hfind a ha)
    | some arg =>
      exact ⟨"simulator " ++ arg ++ " not recognized",
        fun extIP => by simp [runE, runCommandState, hfind]⟩
  · have hfind : args.find? (fun a => !(stringsContains simulatorNames a)) = none :=
      List.find?_eq_none.mpr (fun x hx => by simp [hall x hx])
    simp [runE, runCommandState, hfind]

/-- Witness for C3 at concrete inputs: the unknown name `"bogus"` is
rejected independently of the IP outcome, and an IP-resolution failure
with the valid name `"dga"` aborts with that failure. -/
theorem unknown_name_or_ip_failure_aborts_witness :
    (∃ m, ∀ extIP, runE ⟨.ok []⟩ ⟨.ok []⟩ ⟨.ok []⟩ ⟨.ok []⟩ false extIP ["bogus"]
        = .error m)
  ∧ runE ⟨.ok []⟩ ⟨.ok []⟩ ⟨.ok []⟩ ⟨.ok []⟩ false (.error "no route") ["dga"]
      = .error "no route" :=
  ⟨(unknown_name_or_ip_failure_aborts ⟨.ok []⟩ ⟨.ok []⟩ ⟨.ok []⟩ ⟨.ok []⟩
      false ["bogus"]).1 ⟨"bogus", by decide, by decide⟩,
   (unknown_name_or_ip_failure_aborts ⟨.ok []⟩ ⟨.ok []⟩ ⟨.ok []⟩ ⟨.ok []⟩
      false ["dga"]).2.1 "no route" (by decide)⟩

/-! ## Helper lemmas about the orchestrator's trace -/

theorem entryTrace_error {ip : String} {itv : Nat} {s : simulatorInfo} {e : String}
    (hh : s.s.hosts = .error e) :
    entryTrace ip itv s
      = Event.msg s.name "Starting" :: s.infoHeaders.map (Event.msg s.name)
          ++ Event.sleep itv :: Event.msg s.name ("failed " ++ e)
            :: [Event.msg s.name "Finished"] := by
  simp [entryTrace, hh]

theorem entryTrace_ok {ip : String} {itv : Nat} {s : simulatorInfo} {hosts : List String}
    (hh : s.s.hosts = .ok hosts) :
    entryTrace ip itv s
      = Event.msg s.name "Starting" :: s.infoHeaders.map (Event.msg s.name)
          ++ Event.sleep itv :: targetsLoop s ip "" hosts
          ++ [Event.msg s.name "Finished"] := by
  simp [entryTrace, hh]

theorem sleep_mem_targetsLoop {s : simulatorInfo} {ip : String} :
    ∀ (hosts : List String) (prev : String) (d : Nat),
      Event.sleep d ∈ targetsLoop s ip prev hosts → d = s.interval := by
  intro hosts
  induction hosts with
  | nil => intro prev d h; simp [targetsLoop] at h
  | cons host rest ih =>
    intro prev d h
    simp only [targetsLoop] at h
    simp at h
    rcases h with h | h
    · exact h
    · exact ih _ _ h

theorem sleep_mem_entryTrace {ip : String} {itv : Nat} {s : simulatorInfo} {d : Nat}
    (h : Event.sleep d ∈ entryTrace ip itv s) : d = itv ∨ d = s.interval := by
  cases hh : s.s.hosts with
  | error e =>
    rw [entryTrace_error hh] at h
    simp at h
    exact Or.inl h
  | ok hosts =>
    rw [entryTrace_ok hh] at h
    simp at h
    rcases h with h | h
    · exact Or.inl h
    · exact Or.inr (sleep_mem_targetsLoop hosts "" d h)

theorem sleep_mem_run {sims : List simulatorInfo} {ip : String} {itv : Nat} {d : Nat}
    (h : Event.sleep d ∈ run sims ip itv) : d = itv ∨ ∃ s ∈ sims, d = s.interval := by
  unfold run at h
  simp at h
  rcases h with ⟨t, ht, hd⟩
  rcases sleep_mem_entryTrace hd with h | h
  · exact Or.inl h
  · exact Or.inr ⟨t, ht, h⟩

/-! ## Claims about failure isolation -/

/-- C1: a per-entry target-production failure never aborts the run: the
run's trace decomposes into the earlier entries' traces, the failing
entry's trace, and the full traces of all later entries, followed by the
overall-completion line; in particular every later entry's trace (with
its progress announcements) is an infix of the run's trace, so the run
does not return early. -/
theorem production_failure_never_aborts_run (pre post : List simulatorInfo)
    (e : simulatorInfo) (ip : String) (itv : Nat) (m : String)
    (h : e.s.hosts = .error m) :
    run (pre ++ e :: post) ip itv
      = Event.welcome ip :: Event.header
          :: ((pre.map (entryTrace ip itv)).flatten
              ++ entryTrace ip itv e
              ++ (post.map (entryTrace ip itv)).flatten
              ++ [Event.goodbye])
  ∧ entryTrace ip itv e
      = Event.msg e.name "Starting" :: e.infoHeaders.map (Event.msg e.name)
          ++ Event.sleep itv :: Event.msg e.name ("failed " ++ m)
            :: [Event.msg e.name "Finished"]
  ∧ (∀ t ∈ post, (entryTrace ip itv t).IsInfix (run (pre ++ e :: post) ip itv)) := by
  have hdec : run (pre ++ e :: post) ip itv
      = Event.welcome ip :: Event.header
          :: ((pre.map (entryTrace ip itv)).flatten
              ++ entryTrace ip itv e
              ++ (post.map (entryTrace ip itv)).flatten
              ++ [Event.goodbye]) := by
    simp [run, List.map_append, List.flatten_append]
  refine ⟨hdec, entryTrace_error h, fun t ht => ?_⟩
  rw [hdec]
  have h1 : (entryTrace ip itv t).IsInfix (post.map (entryTrace ip itv)).flatten :=
    List.infix_of_mem_flatten (List.mem_map_of_mem (entryTrace ip itv) ht)
  rcases h1 with ⟨l, r, hlr⟩
  exact ⟨Event.welcome ip :: Event.header
      :: ((pre.map (entryTrace ip itv)).flatten ++ entryTrace ip itv e ++ l),
    r ++ [Event.goodbye], by simp [← hlr]⟩

/-- A failing simulator and a succeeding one, for concrete witnesses. -/
def failEntry : simulatorInfo :=
  ⟨"dga", ["Generating list of DGA domains"], "Resolving %s", ⟨.error "boom"⟩, 500⟩

/-- A succeeding entry with targets `[a:80, a:443, b:22]`, for concrete
witnesses. -/
def okEntry : simulatorInfo :=
  ⟨"tunnel", ["Preparing DNS tunnel hostnames"], "Resolving %s",
    ⟨.ok ["a:80", "a:443", "b:22"]⟩, 0⟩

/-- Witness for C1: with a first entry whose production fails, the
second entry's full trace still occurs inside the run's trace. -/
theorem production_failure_never_aborts_run_witness :
    (entryTrace "ip" 0 okEntry).IsInfix (run ([] ++ failEntry :: [okEntry]) "ip" 0) :=
  (production_failure_never_aborts_run [] [okEntry] failEntry "ip" 0 "boom" rfl).2.2
    okEntry (by decide)

/-- C5: an entry whose target-sequence production fails announces the
failure and goes straight to its completion announcement: its trace is
exactly start, phase headers, the inter-entry sleep, the failure line
and the completion line — it contains no `Simulate` invocation and no
progress line. -/
theorem production_failure_contributes_no_targets (ip : String) (itv : Nat)
    (s : simulatorInfo) (m : String) (h : s.s.hosts = .error m) :
    entryTrace ip itv s
      = Event.msg s.name "Starting" :: s.infoHeaders.map (Event.msg s.name)
          ++ Event.sleep itv :: Event.msg s.name ("failed " ++ m)
            :: [Event.msg s.name "Finished"]
  ∧ (∀ ev ∈ entryTrace ip itv s, ev.isSimulate = false) := by
  have heq : entryTrace ip itv s
      = Event.msg s.name "Starting" :: s.infoHeaders.map (Event.msg s.name)
          ++ Event.sleep itv :: Event.msg s.name ("failed " ++ m)
            :: [Event.msg s.name "Finished"] := by
    simp [entryTrace, h]
  refine ⟨heq, fun ev hev => ?_⟩
  rw [heq] at hev
  rcases List.mem_cons.mp hev with rfl | hev
  · rfl
  rcases List.mem_append.mp hev with hev | hev
  · rcases List.mem_map.mp hev with ⟨x, _, rfl⟩; rfl
  rcases List.mem_cons.mp hev with rfl | hev
  · rfl
  rcases List.mem_cons.mp hev with rfl | hev
  · rfl
  rw [List.mem_singleton] at hev
  subst hev
  rfl

/-- Witness for C5: the concrete failing entry's trace, with no
`Simulate` event in it. -/
theorem production_failure_contributes_no_targets_witness :
    entryTrace "ip" 2000 failEntry
      = Event.msg "dga" "Starting" :: [Event.msg "dga" "Generating list of DGA domains"]
          ++ Event.sleep 2000 :: Event.msg "dga" ("failed " ++ "boom")
            :: [Event.msg "dga" "Finished"] :=
  (production_failure_contributes_no_targets "ip" 2000 failEntry "boom" rfl).1

/-! ## Claims about pacing -/

/-- C9: in fast mode, every sleep in the run's trace has duration zero:
the inter-entry delay is zero and every selected entry's pacing delay
has been zeroed, so no wait (inter-entry or inter-target) is positive. -/
theorem fast_mode_all_sleeps_zero (c2dns dga scan tunnel : Simulator)
    (extIP : Except String String) (args : List String) (trace : List Event)
    (hok : runE c2dns dga scan tunnel true extIP args = .ok trace) :
    ∀ ms, Event.sleep ms ∈ trace → ms = 0 := by
  unfold runE runCommandState at hok
  cases hfind : args.find? (fun a => !(stringsContains simulatorNames a)) with
  | some arg => simp [hfind] at hok
  | none =>
    simp only [hfind] at hok
    cases extIP with
    | error e => simp at hok
    | ok ip =>
      simp only [if_true, reduceIte] at hok
      injection hok with hok
      subst hok
      intro ms hm
      rcases sleep_mem_run hm with h0 | ⟨s, hs, hint⟩
      · exact h0
      · rcases List.mem_map.mp hs with ⟨s₀, _, rfl⟩
        exact hint

/-- Witness for C9: a concrete fast run whose trace is computed, then
the theorem applied to its sleep events. -/
theorem fast_mode_all_sleeps_zero_witness :
    runE ⟨.ok ["x"]⟩ ⟨.ok []⟩ ⟨.ok []⟩ ⟨.ok []⟩ true (.ok "ip") ["c2-dns"]
      = .ok (run [⟨"c2-dns", ["Preparing random sample of current C2 domains"],
                    "Resolving %s", ⟨.ok ["x"]⟩, 0⟩] "ip" 0)
  ∧ (0 : Nat) = 0 :=
  ⟨rfl,
   fast_mode_all_sleeps_zero ⟨.ok ["x"]⟩ ⟨.ok []⟩ ⟨.ok []⟩ ⟨.ok []⟩ (.ok "ip")
     ["c2-dns"]
     (run [⟨"c2-dns", ["Preparing random sample of current C2 domains"],
             "Resolving %s", ⟨.ok ["x"]⟩, 0⟩] "ip" 0)
     rfl 0 (by decide)⟩

/-! ## Progress narration: hostname derivation and deduplication -/

theorem destutter'_head (R : String → String → Prop) [DecidableRel R] :
    ∀ (l : List String) (a : String),
      List.destutter' R a l = a :: (List.destutter' R a l).tail := by
  intro l
  induction l with
  | nil => intro a; rfl
  | cons b l ih =>
    intro a
    rw [List.destutter']
    by_cases h : R a b
    · rw [if_pos h]; rfl
    · rw [if_neg h]; exact ih a

theorem targetsLoop_simulates (s : simulatorInfo) (ip : String) :
    ∀ (hosts : List String) (prev : String),
      (targetsLoop s ip prev hosts).filter Event.isSimulate
        = hosts.map (Event.simulate ip) := by
  intro hosts
  induction hosts with
  | nil => intro prev; rfl
  | cons host rest ih =>
    intro prev
    by_cases hc : prev ≠ displayHostname host <;>
      simp [targetsLoop, hc, Event.isSimulate, List.filter_append, ih]

theorem targetsLoop_msgs (s : simulatorInfo) (ip : String) :
    ∀ (hosts : List String) (prev : String),
      (targetsLoop s ip prev hosts).filter Event.isMsg
        = (List.destutter' (· ≠ ·) prev (hosts.map displayHostname)).tail.map
            (fun hn => Event.msg s.name (sprintf1 s.infoRun hn)) := by
  intro hosts
  induction hosts with
  | nil => intro prev; rfl
  | cons host rest ih =>
    intro prev
    rw [List.map_cons, List.destutter']
    by_cases hc : prev ≠ displayHostname host
    · rw [if_pos hc]
      simp only [targetsLoop, if_pos hc, List.filter_append, List.filter_cons,
        List.filter_nil, Event.isMsg, List.tail_cons]
      rw [destutter'_head, List.map_cons, ih (displayHostname host) ]
      simp [Event.isMsg]
    · rw [if_neg hc]
      have hp : prev = displayHostname host := not_not.mp hc
      simp only [targetsLoop, if_neg hc, List.filter_append, List.filter_cons,
        List.filter_nil, Event.isMsg]
      rw [← hp, ih prev]
      conv_rhs => rw [hp]
      simp [Event.isMsg, hp]

/-- C4 fails as stated: for the entry below, the first (and only)
target's display hostname is the empty string, which coincides with the
initial value of the previous-hostname accumulator, so no progress
announcement is emitted for the first target of the entry: the entry's
only `printMsg` lines are `Starting` and `Finished`. -/
theorem hostname_dedup_counterexample :
    (entryTrace "ip" 0 ⟨"dga", [], "Resolving %s", ⟨.ok [""]⟩, 0⟩).filter Event.isMsg
      = [Event.msg "dga" "Starting", Event.msg "dga" "Finished"]
  ∧ (entryTrace "ip" 0 ⟨"dga", [], "Resolving %s", ⟨.ok [""]⟩, 0⟩).filter Event.isSimulate
      = [Event.simulate "ip" ""] := by
  constructor
  · decide
  · decide

/-- C4 (amended): within one entry's target loop, a progress
announcement is emitted for a target exactly when its derived display
hostname differs from the previous-hostname accumulator, which starts
as the empty string: the announced hostnames are the consecutive
deduplication (`destutter'`) of the display hostnames seeded with the
empty string, so the first target is announced exactly when its display
hostname is non-empty.  `Simulate` is still invoked once per target
regardless of announcement suppression; and for the target sequence
`[a:80, a:443, b:22]` exactly two announcements are emitted. -/
theorem hostname_dedup_amended (s : simulatorInfo) (ip prev : String)
    (hosts : List String) :
    (targetsLoop s ip prev hosts).filter Event.isMsg
      = (List.destutter' (· ≠ ·) prev (hosts.map displayHostname)).tail.map
          (fun hn => Event.msg s.name (sprintf1 s.infoRun hn))
  ∧ (targetsLoop s ip prev hosts).filter Event.isSimulate
      = hosts.map (Event.simulate ip)
  ∧ ((targetsLoop s ip "" ["a:80", "a:443", "b:22"]).filter Event.isMsg).length = 2 := by
  refine ⟨targetsLoop_msgs s ip hosts prev, targetsLoop_simulates s ip hosts prev, ?_⟩
  rw [targetsLoop_msgs s ip ["a:80", "a:443", "b:22"] "", List.length_map]
  decide

/-- C6: display-hostname derivation is total: when the identifier
splits as `host:port` the host part is used, otherwise the identifier
is kept whole; `"example.com"` and `"example.com:53"` both display as
`"example.com"`; and the `Simulate` action always receives the raw,
unparsed identifier (the simulate events of the target loop carry the
produced identifiers verbatim). -/
theorem display_hostname_total (t : String) :
    (∀ host port, splitHostPort t = some (host, port) → displayHostname t = host)
  ∧ (splitHostPort t = none → displayHostname t = t)
  ∧ displayHostname "example.com" = "example.com"
  ∧ displayHostname "example.com:53" = "example.com"
  ∧ (∀ (s : simulatorInfo) (ip prev : String) (hosts : List String),
       (targetsLoop s ip prev hosts).filter Event.isSimulate
         = hosts.map (Event.simulate ip)) := by
  refine ⟨fun host port hsp => ?_, fun hsp => ?_, by decide, by decide,
    fun s ip prev hosts => targetsLoop_simulates s ip hosts prev⟩
  · unfold displayHostname
    rw [hsp]
  · unfold displayHostname
    rw [hsp]

/-- Witness for C6 at the two concrete identifiers of the claim. -/
theorem display_hostname_total_witness :
    splitHostPort "example.com" = none
  ∧ displayHostname "example.com" = "example.com"
  ∧ splitHostPort "example.com:53" = some ("example.com", "53")
  ∧ displayHostname "example.com:53" = "example.com" :=
  ⟨by decide, (display_hostname_total "example.com").2.1 (by decide), by decide,
   (display_hostname_total "example.com:53").1 "example.com" "53" (by decide)⟩

/-! ## Pacing order within an entry -/

/-- A concrete catalog-shaped entry with a stubbed simulator, for
pacing-order counterexamples. -/
def c2dnsStub : simulatorInfo :=
  ⟨"c2-dns", ["Preparing random sample of current C2 domains"],
    "Resolving %s", ⟨.ok []⟩, 500⟩

/-- C8 fails as stated: in a normal-mode run of one entry, the unique
inter-entry sleep occurs at position 4 of the trace while the entry's
unique phase-description line occurs at position 3 — the wait follows
the phase-description announcement, it does not precede it. -/
theorem delay_order_counterexample :
    run [c2dnsStub] "ip" 2000
      = [Event.welcome "ip", Event.header, Event.msg "c2-dns" "Starting",
         Event.msg "c2-dns" "Preparing random sample of current C2 domains",
         Event.sleep 2000, Event.msg "c2-dns" "Finished", Event.goodbye]
  ∧ (run [c2dnsStub] "ip" 2000).findIdx? (· == Event.sleep 2000) = some 4
  ∧ (run [c2dnsStub] "ip" 2000).findIdx?
      (· == Event.msg "c2-dns" "Preparing random sample of current C2 domains") = some 3
  ∧ (run [c2dnsStub] "ip" 2000).count (Event.sleep 2000) = 1
  ∧ (run [c2dnsStub] "ip" 2000).count
      (Event.msg "c2-dns" "Preparing random sample of current C2 domains") = 1 := by
  refine ⟨by decide, by decide, by decide, by decide, by decide⟩

/-- C8 (amended): in every entry's trace the inter-entry delay is taken
after the entry's start line and phase-description lines and before the
rest of the entry (target processing or failure announcement, then
completion): the trace always decomposes as start, phase descriptions,
the sleep, then the remainder. -/
theorem delay_after_phase_descriptions (ip : String) (itv : Nat) (s : simulatorInfo) :
    ∃ rest, entryTrace ip itv s
      = Event.msg s.name "Starting" :: s.infoHeaders.map (Event.msg s.name)
          ++ Event.sleep itv :: rest := by
  cases hh : s.s.hosts with
  | error e =>
    exact ⟨Event.msg s.name ("failed " ++ e) :: [Event.msg s.name "Finished"],
      entryTrace_error hh⟩
  | ok hosts =>
    refine ⟨targetsLoop s ip "" hosts ++ [Event.msg s.name "Finished"], ?_⟩
    rw [entryTrace_ok hh]
    simp

/-! ## Catalog immutability -/

/-- C10: the catalog is never mutated by the run command: threading the
catalog through the command as explicit state, the catalog after the
command executes is the catalog it started with, for every
configuration; selection only copies entries (its result is a sublist
of the catalog), and the fast-mode zeroing produces a fresh list of
copies without touching the catalog. -/
theorem catalog_never_mutated (c2dns dga scan tunnel : Simulator) (fast : Bool)
    (extIP : Except String String) (args : List String) :
    (runCommandState c2dns dga scan tunnel fast extIP args).2
      = allsimualtors c2dns dga scan tunnel
  ∧ (∀ names, (selectSimulatorsFrom (allsimualtors c2dns dga scan tunnel) names).Sublist
        (allsimualtors c2dns dga scan tunnel)) := by
  constructor
  · unfold runCommandState
    cases hfind : args.find? (fun a => !(stringsContains simulatorNames a)) with
    | some arg => rfl
    | none => cases extIP <;> rfl
  · intro names
    exact selectSimulatorsFrom_sublist _ _

end Flightsim
